import Mathlib

/-!
# Verification of `mealie_menu_creator.py`

A shallow embedding of the Mealie weekly-menu creator script and proofs of
the specification claims about it.  Python values are modelled as follows:
JSON values by the inductive `Json` (JSON numbers appear in this repository's
data only as integers and are modelled as `Int`); strings by `String`;
`None`-able results by `Option`; raised exceptions by `Except PyExc`.
Python's `str.lower` and `str.strip` are modelled on the ASCII and Latin-1
alphabets, which cover the Hungarian recipe data this program handles.
-/

set_option autoImplicit false

namespace Mealie

/-- Python whitespace characters recognised by `str.strip` and `\s`
(ASCII subset; exotic Unicode space characters are outside the model). -/
def pyIsSpace (c : Char) : Bool :=
  c = ' ' ∨ c = '\t' ∨ c = '\n' ∨ c = '\r' ∨ c = '\x0b' ∨ c = '\x0c'

/-- Python `str.lower` on one character, for ASCII and Latin-1 letters:
`A`–`Z` and `À`–`Þ` (except `×`) map down by 32, everything else is fixed.
This matches CPython on every character appearing in this repository. -/
def pyCharLower (c : Char) : Char :=
  if 'A' ≤ c ∧ c ≤ 'Z' then Char.ofNat (c.toNat + 32)
  else if 'À' ≤ c ∧ c ≤ 'Þ' ∧ c ≠ '×' then Char.ofNat (c.toNat + 32)
  else c

/-- Python `str.lower`. -/
def pyLower (s : String) : String :=
  ⟨s.data.map pyCharLower⟩

/-- Python `str.strip`: drop leading and trailing whitespace. -/
def pyStrip (s : String) : String :=
  ⟨(s.data.dropWhile pyIsSpace).reverse.dropWhile pyIsSpace |>.reverse⟩

/-- Does `needle` occur as a contiguous run inside `hay`? -/
def listInfix (needle hay : List Char) : Bool :=
  match hay with
  | [] => needle.isEmpty
  | _ :: t => needle.isPrefixOf hay || listInfix needle t

/-- Python's `needle in hay` substring test. -/
def pyContains (hay needle : String) : Bool :=
  listInfix needle.data hay.data

example : pyLower "REGGELI Torta" = "reggeli torta" := by decide
example : pyStrip "  Ajvár " = "Ajvár" := by decide
example : pyLower "  Ajvár " = "  ajvár " := by decide
example : pyContains "hús reggelire" "reggeli" = true := by decide
example : pyContains "ebéd" "reggeli" = false := by decide

/-- The JSON values handled by the script.  Numbers occur in this data only
as integers and are modelled by `int`. -/
inductive Json where
  | null
  | bool (b : Bool)
  | int (n : Int)
  | str (s : String)
  | arr (items : List Json)
  | obj (fields : List (String × Json))

namespace Json

/-- Python `dict.get` without a default: the value of the first binding of
`k`, or `none` when `k` is absent. -/
def get (j : Json) (k : String) : Option Json :=
  match j with
  | .obj fields => (fields.find? (fun p => p.1 = k)).map (·.2)
  | _ => none

/-- Python truthiness of a JSON value (`bool(x)`). -/
def truthy : Json → Bool
  | .null => false
  | .bool b => b
  | .int n => n != 0
  | .str s => s != ""
  | .arr items => !items.isEmpty
  | .obj fields => !fields.isEmpty

/-- `isinstance(x, dict)`. -/
def isObj : Json → Bool
  | .obj _ => true
  | _ => false

/-- `isinstance(x, (str, int, float, bool))`: the scalar test used by the
ingredient-payload fallback branch (`None` and containers are not scalars). -/
def isScalar : Json → Bool
  | .bool _ => true
  | .int _ => true
  | .str _ => true
  | _ => false

end Json

/-- A single quote character, used by `pyRepr` for string quoting. -/
def sq : String := String.singleton (Char.ofNat 39)

mutual

/-- Python `repr` of a JSON value (list and dict rendering uses the usual
bracketed, comma-separated form; the opening and closing braces of a dict
are built from their character codes). -/
def pyRepr : Json → String
  | .null => "None"
  | .bool b => if b then "True" else "False"
  | .int n => toString n
  | .str s => sq ++ s ++ sq
  | .arr items => "[" ++ pyReprList items ++ "]"
  | .obj fields =>
      String.singleton (Char.ofNat 123) ++ pyReprFields fields ++
        String.singleton (Char.ofNat 125)

/-- Comma-separated `repr`s of list elements. -/
def pyReprList : List Json → String
  | [] => ""
  | [j] => pyRepr j
  | j :: rest => pyRepr j ++ ", " ++ pyReprList rest

/-- Comma-separated `key: value` renderings of dict fields. -/
def pyReprFields : List (String × Json) → String
  | [] => ""
  | [(k, v)] => sq ++ k ++ sq ++ ": " ++ pyRepr v
  | (k, v) :: rest => sq ++ k ++ sq ++ ": " ++ pyRepr v ++ ", " ++ pyReprFields rest

end

/-- Python `str(x)`: identity on strings, `repr` otherwise. -/
def pyStr : Json → String
  | .str s => s
  | j => pyRepr j

example : pyStr (.str "ajvár") = "ajvár" := by decide
example : pyStr .null = "None" := by decide
example : pyStr (.int (-5)) = "-5" := by decide

/-! ## The API client (`MealieAPI`), payload level

`MealieAPI._request` calls `raise_for_status()`, which raises
`requests.exceptions.HTTPError` on a non-2xx status.  A transport failure
(`requests.exceptions.ConnectionError`, `Timeout`, …) raises an exception
that is *not* a subclass of `HTTPError`.  The listing methods wrap the
request in `try … except requests.exceptions.HTTPError`, so only the
non-2xx case is caught.  `HttpResult` models the outcome of one request as
seen by the caller of `_request`. -/

/-- The outcome of `MealieAPI._request`: a 2xx response with a decoded JSON
body, a non-2xx response (`raise_for_status` raised `HTTPError`), or a
transport failure (a `requests` exception that is not an `HTTPError`). -/
inductive HttpResult where
  | success (body : Json)
  | httpError
  | transportError

/-- Exceptions that can escape the embedded functions. -/
inductive PyExc where
  | connectionError
  | attributeError

/-- The entry coercion of `MealieAPI.get_ingredients`:
`item if isinstance(item, dict) else {'name': str(item)}`. -/
def coerceFood (j : Json) : Json :=
  if j.isObj then j else .obj [("name", .str (pyStr j))]

/-- The filter of the ingredient fallback branch:
`if not isinstance(value, (str, int, float, bool)) or value`. -/
def keepFood (j : Json) : Bool :=
  !j.isScalar || j.truthy

namespace MealieAPI

/-- Shape normalisation of `MealieAPI.get_ingredients` on a decoded 2xx
body: a raw list, a dict with a list under `items`, or a dict taken as a
mapping of id to ingredient (its values filtered by `keepFood`); any other
payload type logs a warning and yields `[]`. -/
def normalizeFoods (data : Json) : List Json :=
  match data with
  | .arr items => items.map coerceFood
  | .obj fields =>
      match (Json.obj fields).get "items" with
      | some (.arr items) => items.map coerceFood
      | _ => ((fields.map (·.2)).filter keepFood).map coerceFood
  | _ => []

/-- `MealieAPI.get_ingredients`: on success the body is normalised; a
non-2xx `HTTPError` is caught and yields `[]`; a transport failure is not
an `HTTPError`, escapes the `except` clause and propagates. -/
def get_ingredients (r : HttpResult) : Except PyExc (List Json) :=
  match r with
  | .success body => .ok (normalizeFoods body)
  | .httpError => .ok []
  | .transportError => .error .connectionError

/-- `MealieAPI.get_recipes`: `response.json().get('items', [])` on success
(the value under `items` is returned as-is; an `AttributeError` if the body
is not a dict, which also escapes the `except HTTPError` clause); `[]` on a
caught non-2xx `HTTPError`; a transport failure propagates. -/
def get_recipes (r : HttpResult) : Except PyExc Json :=
  match r with
  | .success body =>
      match body with
      | .obj fields => .ok (((Json.obj fields).get "items").getD (.arr []))
      | _ => .error .attributeError
  | .httpError => .ok (.arr [])
  | .transportError => .error .connectionError

end MealieAPI

/-! ## Name lookups (`get_ingredient_by_name`, `get_recipe_by_name`) -/

/-- The key two names are compared on: `s.lower().strip()`. -/
def nameKey (s : String) : String := pyStrip (pyLower s)

/-- Python `a or b` on values (the left operand when truthy, else the
right). -/
def pyOrJ (a b : Json) : Json := if a.truthy then a else b

/-- `ingredient.get('name') or ingredient.get('title') or ''` (an absent
key gives `None`, which is falsy). -/
def entryNameValue (fields : List (String × Json)) : Json :=
  pyOrJ (((Json.obj fields).get "name").getD .null)
    (pyOrJ (((Json.obj fields).get "title").getD .null) (.str ""))

namespace MealieAPI

/-- The loop of `MealieAPI.get_ingredient_by_name`: dict entries are
compared on `name`-or-`title` (an `AttributeError` when that value is a
truthy non-string, since `.lower()` is then called on it), bare-string
entries on themselves and returned wrapped as `{'name': entry}`, and
entries of any other type are skipped silently. -/
def findIngredient (nameLower : String) : List Json → Except PyExc (Option Json)
  | [] => .ok none
  | e :: rest =>
      match e with
      | .obj fields =>
          match entryNameValue fields with
          | .str s =>
              if nameKey s = nameLower then .ok (some (.obj fields))
              else findIngredient nameLower rest
          | _ => .error .attributeError
      | .str s =>
          if nameKey s = nameLower then .ok (some (.obj [("name", .str s)]))
          else findIngredient nameLower rest
      | _ => findIngredient nameLower rest

/-- `MealieAPI.get_ingredient_by_name`, given the normalised listing
`entries` (the result of `get_ingredients`). -/
def get_ingredient_by_name (entries : List Json) (name : String) :
    Except PyExc (Option Json) :=
  findIngredient (nameKey name) entries

/-- The loop of `MealieAPI.get_recipe_by_name`:
`recipe.get('name', '').lower().strip() == name_lower`.  A non-dict entry
raises (`.get` on it), as does a truthy non-string `name` value. -/
def findRecipe (nameLower : String) : List Json → Except PyExc (Option Json)
  | [] => .ok none
  | e :: rest =>
      match e with
      | .obj fields =>
          match ((Json.obj fields).get "name").getD (.str "") with
          | .str s =>
              if nameKey s = nameLower then .ok (some (.obj fields))
              else findRecipe nameLower rest
          | _ => .error .attributeError
      | _ => .error .attributeError

/-- `MealieAPI.get_recipe_by_name`, given the recipe listing `entries`. -/
def get_recipe_by_name (entries : List Json) (name : String) :
    Except PyExc (Option Json) :=
  findRecipe (nameKey name) entries

end MealieAPI

/-- An ingredient-listing entry on which `get_ingredient_by_name` cannot
raise: a dict whose effective name value is a string, a bare string, or an
entry of a silently skipped type. -/
def goodFoodEntry : Json → Bool
  | .obj fields =>
      match entryNameValue fields with
      | .str _ => true
      | _ => false
  | _ => true

/-- The comparison key of an ingredient-listing entry (`none` for entries
the loop skips). -/
def foodEntryKey : Json → Option String
  | .obj fields =>
      match entryNameValue fields with
      | .str s => some (nameKey s)
      | _ => none
  | .str s => some (nameKey s)
  | _ => none

/-- A recipe-listing entry on which `get_recipe_by_name` cannot raise: a
dict whose `name` value, when present, is a string. -/
def goodRecipeEntry : Json → Bool
  | .obj fields =>
      match ((Json.obj fields).get "name").getD (.str "") with
      | .str _ => true
      | _ => false
  | _ => false

/-- The comparison key of a recipe-listing entry. -/
def recipeEntryKey : Json → Option String
  | .obj fields =>
      match ((Json.obj fields).get "name").getD (.str "") with
      | .str s => some (nameKey s)
      | _ => none
  | _ => none

/-! ## Ingredient-line parsing (`parse_ingredient_text`)

The source applies `re.match(r'^([\d\-\.]+\s*[a-zA-Z]*)\s+(.+)$', text.strip())`.
`regexMatch` embeds that pattern with Python's leftmost, greedy,
backtracking semantics, specialised to this pattern:

* `[\d\-\.]+` always consumes its maximal run: a shorter run would leave a
  digit, `-` or `.` at the cursor, on which `\s*` and `[a-zA-Z]*` can match
  only the empty string and `\s+` must fail, so shortening it never helps;
* `\s*` and `[a-zA-Z]*` are tried from their maximal runs down to empty;
* `\s+` then needs at least one whitespace character, and `(.+)$` needs a
  nonempty remainder free of `'\n'` (`.` does not match a newline, and the
  stripped subject cannot end in one).

`\d` and `\s` are modelled on ASCII (the data contains no other digits or
spaces). -/

/-- A character of the class `[\d\-\.]`. -/
def isQtyChar (c : Char) : Bool := c.isDigit || c = '-' || c = '.'

/-- A character of the class `[a-zA-Z]`. -/
def isAsciiAlpha (c : Char) : Bool := ('a' ≤ c ∧ c ≤ 'z') ∨ ('A' ≤ c ∧ c ≤ 'Z')

/-- Match `\s+(.+)$` at `r`, greedily, given the group-1 text `g1`:
the first (longest) nonempty whitespace prefix whose remainder is nonempty
and newline-free wins. -/
def matchTail (g1 r : List Char) : Option (List Char × List Char) :=
  let smax := (r.takeWhile pyIsSpace).length
  ((List.range smax).map (fun i => smax - i)).findSome? (fun slen =>
    let rest := r.drop slen
    if rest ≠ [] ∧ ¬ rest.contains '\n' then some (g1, rest) else none)

/-- Match `[a-zA-Z]*\s+(.+)$` at `r`, greedily, `g1` being the group-1 text
matched so far. -/
def matchAlpha (g1 r : List Char) : Option (List Char × List Char) :=
  let amax := (r.takeWhile isAsciiAlpha).length
  ((List.range (amax + 1)).map (fun i => amax - i)).findSome? (fun alen =>
    matchTail (g1 ++ r.take alen) (r.drop alen))

/-- Match the full pattern against `cs` (already stripped), returning the
two capture groups. -/
def regexMatch (cs : List Char) : Option (List Char × List Char) :=
  let p1 := cs.takeWhile isQtyChar
  if p1.isEmpty then none
  else
    let r1 := cs.drop p1.length
    let wmax := (r1.takeWhile pyIsSpace).length
    ((List.range (wmax + 1)).map (fun i => wmax - i)).findSome? (fun wlen =>
      matchAlpha (p1 ++ r1.take wlen) (r1.drop wlen))

/-- The result of `MealieMenuCreator.parse_ingredient_text`. -/
structure ParsedIngredient where
  quantity : String
  name : String
  original_text : String
deriving DecidableEq

namespace MealieMenuCreator

/-- `MealieMenuCreator.parse_ingredient_text`. -/
def parse_ingredient_text (ingredient_text : String) : ParsedIngredient :=
  let stripped := pyStrip ingredient_text
  match regexMatch stripped.data with
  | some (g1, g2) =>
      { quantity := pyStrip ⟨g1⟩
        name := pyStrip ⟨g2⟩
        original_text := ingredient_text }
  | none =>
      { quantity := ""
        name := stripped
        original_text := ingredient_text }

end MealieMenuCreator

example : MealieMenuCreator.parse_ingredient_text "30 g ajvár" =
    ⟨"30 g", "ajvár", "30 g ajvár"⟩ := by decide
example : MealieMenuCreator.parse_ingredient_text "a pinch of salt" =
    ⟨"", "a pinch of salt", "a pinch of salt"⟩ := by decide
example : MealieMenuCreator.parse_ingredient_text "50-100 g friss zöldség" =
    ⟨"50-100 g", "friss zöldség", "50-100 g friss zöldség"⟩ := by decide
example : MealieMenuCreator.parse_ingredient_text "30g liszt" =
    ⟨"30g", "liszt", "30g liszt"⟩ := by decide

/-! ## The source-recipe record and meal-type inference -/

/-- A recipe of the input menu JSON.  Fields are `Option`s because the
source reads each with a `.get` default; `keywords` keeps its raw JSON
value (the source checks `isinstance(keywords, str)`), while `name`,
`description` and the instruction/nutrition parts are modelled on the
shapes on which the source does not raise. -/
structure SourceRecipe where
  name : Option String := none
  description : Option String := none
  recipeYield : Option Json := none
  recipeIngredient : List String := []
  recipeInstructions : List Json := []
  keywords : Option Json := none
  nutrition : List (String × Json) := []

namespace MealieMenuCreator

/-- `MealieMenuCreator.MEAL_TYPE_MAP`, in declaration order (Python dicts
iterate in insertion order). -/
def MEAL_TYPE_MAP : List (String × String) :=
  [("reggeli", "breakfast"), ("ebéd", "lunch"), ("vacsora", "dinner"),
   ("snack", "snack"), ("breakfast", "breakfast"), ("lunch", "lunch"),
   ("dinner", "dinner")]

/-- `MealieMenuCreator.DAY_ORDER`. -/
def DAY_ORDER : List String :=
  ["monday", "tuesday", "wednesday", "thursday", "friday", "saturday", "sunday"]

/-- One scanning loop of `extract_meal_type`: the value of the first table
key occurring as a substring of `text`. -/
def findMealType (text : String) : Option String :=
  (MEAL_TYPE_MAP.find? (fun p => pyContains text p.1)).map (·.2)

/-- `MealieMenuCreator.extract_meal_type`: scan the lowercased keyword
string (skipped entirely when `keywords` is not a string; an absent
`keywords` defaults to `''`), then the lowercased description, then default
to `'dinner'`. -/
def extract_meal_type (recipe : SourceRecipe) : String :=
  let keywords := recipe.keywords.getD (.str "")
  let fromKeywords :=
    match keywords with
    | .str k => findMealType (pyLower k)
    | _ => none
  match fromKeywords with
  | some t => t
  | none =>
      let description := pyLower (recipe.description.getD "")
      (findMealType description).getD "dinner"

end MealieMenuCreator

example : MealieMenuCreator.extract_meal_type
    { keywords := some (.str "REGGELI, gyors") } = "breakfast" := by decide
example : MealieMenuCreator.extract_meal_type
    { keywords := some (.str "valami"), description := some "könnyű Vacsora" } =
    "dinner" := by decide
example : MealieMenuCreator.extract_meal_type {} = "dinner" := by decide

/-! ## Calendar dates (`calculate_week_dates`)

`datetime.date` arithmetic is modelled on the proleptic Gregorian calendar
as a count of days since 1970-01-01 (the civil-from-days / days-from-civil
algorithms), which agrees with `datetime` on its whole supported range. -/

/-- Day count since 1970-01-01 of the civil date `y-m-d`. -/
def daysFromCivil (y m d : Int) : Int :=
  let y1 := if m ≤ 2 then y - 1 else y
  let era := y1 / 400
  let yoe := y1 - era * 400
  let mp := if m > 2 then m - 3 else m + 9
  let doy := (153 * mp + 2) / 5 + d - 1
  let doe := yoe * 365 + yoe / 4 - yoe / 100 + doy
  era * 146097 + doe - 719468

/-- Civil date `(y, m, d)` of a day count since 1970-01-01. -/
def civilFromDays (z : Int) : Int × Int × Int :=
  let z1 := z + 719468
  let era := z1 / 146097
  let doe := z1 - era * 146097
  let yoe := (doe - doe / 1460 + doe / 36524 - doe / 146096) / 365
  let y := yoe + era * 400
  let doy := doe - (365 * yoe + yoe / 4 - yoe / 100)
  let mp := (5 * doy + 2) / 153
  let d := doy - (153 * mp + 2) / 5 + 1
  let m := if mp < 10 then mp + 3 else mp - 9
  (if m ≤ 2 then y + 1 else y, m, d)

/-- `datetime.weekday()`: Monday is `0`.  1970-01-01 was a Thursday. -/
def pyWeekday (z : Int) : Int := (z + 3) % 7

/-- Zero-padded two-digit rendering (`%m`, `%d`). -/
def pad2 (n : Int) : String :=
  if n < 10 then "0" ++ toString n else toString n

/-- Four-digit year rendering (`%Y`; exact for years 1000–9999). -/
def pad4 (n : Int) : String :=
  if n < 10 then "000" ++ toString n
  else if n < 100 then "00" ++ toString n
  else if n < 1000 then "0" ++ toString n
  else toString n

/-- `date.strftime('%Y-%m-%d')` of a day count. -/
def formatDate (z : Int) : String :=
  let c := civilFromDays z
  pad4 c.1 ++ "-" ++ pad2 c.2.1 ++ "-" ++ pad2 c.2.2

example : civilFromDays 0 = (1970, 1, 1) := by decide
example : daysFromCivil 2025 1 4 = 20092 := by decide
example : pyWeekday (daysFromCivil 2025 1 4) = 5 := by decide
example : formatDate (daysFromCivil 2024 12 30) = "2024-12-30" := by decide

namespace MealieMenuCreator

/-- `MealieMenuCreator.calculate_week_dates`: the Monday of ISO week 1 is
`datetime(year, 1, 4) - timedelta(days=jan_4.weekday())`; the result maps
each day name of `DAY_ORDER`, in order, to the formatted date
`target_monday + idx` where `target_monday` adds `week - 1` weeks. -/
def calculate_week_dates (year week : Int) : List (String × String) :=
  let jan_4 := daysFromCivil year 1 4
  let week_1_monday := jan_4 - pyWeekday jan_4
  let target_monday := week_1_monday + 7 * (week - 1)
  DAY_ORDER.enum.map (fun p => (p.2, formatDate (target_monday + (p.1 : Int))))

end MealieMenuCreator

example : (MealieMenuCreator.calculate_week_dates 2025 1).head? =
    some ("monday", "2024-12-30") := by decide

/-! ## The stateful layer

The remote Mealie server is not part of this repository.  Modelled from
the spec: "the remote server is the sole source of truth for idempotency
(by name lookup)" and its REST surface of §6 — a `GET` returns the current
collection as well-formed records, a `POST` appends the posted entity
(with a server-assigned `id`, and for recipes a `slug`) and returns it,
and the store persists between runs.  `RemoteState` is that store, and
`Effect` records every HTTP request the client issues, in order. -/

/-- A food record held by the server (`POST /foods` body). -/
structure Food where
  name : String
  description : String
deriving DecidableEq

/-- A recipe record held by the server.  `id` and `slug` are `Option`s and
may also be the empty string: both `None` and `''` are falsy in the
source's `created_recipe.get('id') or created_recipe.get('slug')`. -/
structure RemoteRecipe where
  name : String
  id : Option String := none
  slug : Option String := none
deriving DecidableEq

/-- The remote store, together with which `POST`s the server currently
rejects.  Modelled from the spec: `createIngredient` and `createRecipe`
"return nothing (logged, not raised) on HTTP error" — `foodPostFails` and
`recipePostFails` name the entities whose creation the server answers with
a non-2xx status (the request is still issued; nothing is stored). -/
structure RemoteState where
  foods : List Food := []
  recipes : List RemoteRecipe := []
  foodPostFails : List String := []
  recipePostFails : List String := []
deriving DecidableEq

/-- The settings block attached to every created recipe. -/
structure RecipeSettings where
  public : Bool
  showNutrition : Bool
  showAssets : Bool
  landscapeView : Bool
  disableComments : Bool
  disableAmount : Bool

/-- One structured ingredient entry of the translated recipe payload. -/
structure IngredientEntry where
  title : String
  note : String
  unit : String
  quantity : String
  foodName : String
  disableAmount : Bool
  display : String

/-- One instruction entry of the translated recipe payload. -/
structure InstructionEntry where
  id : String
  title : String
  text : Json

/-- The renamed nutrition block of the translated recipe payload. -/
structure NutritionOut where
  calories : Json
  protein : Json
  fatContent : Json
  carbohydrateContent : Json

/-- The translated recipe payload (`POST /recipes` body). -/
structure MealieRecipe where
  name : String
  description : String
  recipeYield : Json
  recipeIngredient : List IngredientEntry
  recipeInstructions : List InstructionEntry
  notes : List Json
  tags : List Json
  settings : RecipeSettings
  nutrition : Option NutritionOut

/-- One HTTP request issued by the client. -/
inductive Effect where
  | getFoods
  | postFood (name : String)
  | getRecipes
  | postRecipe (payload : MealieRecipe)
  | postMealplan (date : String) (entryType : String) (recipeId : String)

/-- Is this effect a `POST`, i.e. a creation? -/
def Effect.isPost : Effect → Bool
  | .getFoods => false
  | .getRecipes => false
  | _ => true

namespace MealieAPI

/-- `get_ingredient_by_name` against the server store: the first food whose
`name.lower().strip()` equals the query's. -/
def get_ingredient_by_name_st (s : RemoteState) (name : String) : Option Food :=
  s.foods.find? (fun f => nameKey f.name == nameKey name)

/-- `create_ingredient` against the server store: `POST /foods` with the
name and its auto-generated description.  On a rejected `POST` the caught
`HTTPError` handler returns `None` and nothing is stored; otherwise the
server appends the new food and returns it. -/
def create_ingredient_st (s : RemoteState) (name : String) :
    Option Food × RemoteState × List Effect :=
  if name ∈ s.foodPostFails then (none, s, [.postFood name])
  else
    let nf : Food := ⟨name, "Auto-created ingredient: " ++ name⟩
    (some nf, { s with foods := s.foods ++ [nf] }, [.postFood name])

/-- `ensure_ingredient_exists` against the server store: find by name
(one `GET /foods`), create only when the lookup finds none. -/
def ensure_ingredient_exists_st (s : RemoteState) (name : String) :
    Option Food × RemoteState × List Effect :=
  match get_ingredient_by_name_st s name with
  | some f => (some f, s, [.getFoods])
  | none =>
      let c := create_ingredient_st s name
      (c.1, c.2.1, .getFoods :: c.2.2)

/-- `get_recipe_by_name` against the server store. -/
def get_recipe_by_name_st (s : RemoteState) (name : String) : Option RemoteRecipe :=
  s.recipes.find? (fun r => nameKey r.name == nameKey name)

/-- `create_recipe` against the server store: `POST /recipes`.  On a
rejected `POST` the caught `HTTPError` handler returns `None`; otherwise
the server appends the record, assigning an `id` and a `slug`, and
returns it. -/
def create_recipe_st (s : RemoteState) (payload : MealieRecipe) :
    Option RemoteRecipe × RemoteState × List Effect :=
  if payload.name ∈ s.recipePostFails then (none, s, [.postRecipe payload])
  else
    let created : RemoteRecipe :=
      { name := payload.name
        id := some ("id-" ++ toString s.recipes.length)
        slug := some (nameKey payload.name) }
    (some created, { s with recipes := s.recipes ++ [created] }, [.postRecipe payload])

end MealieAPI

namespace MealieMenuCreator

/-- The ingredient loop of `convert_recipe_to_mealie_format`: per line,
parse it, call `ensure_ingredient_exists` on the parsed name (its return
value is discarded), and append the structured entry built from the parsed
line alone. -/
def convertIngredients (s : RemoteState) :
    List String → List IngredientEntry × RemoteState × List Effect
  | [] => ([], s, [])
  | line :: rest =>
      let parsed := parse_ingredient_text line
      let r1 := MealieAPI.ensure_ingredient_exists_st s parsed.name
      let entry : IngredientEntry :=
        { title := ""
          note := parsed.original_text
          unit := ""
          quantity := parsed.quantity
          foodName := parsed.name
          disableAmount := false
          display := parsed.original_text }
      let r2 := convertIngredients r1.2.1 rest
      (entry :: r2.1, r2.2.1, r1.2.2 ++ r2.2.2)

/-- The instruction loop of `convert_recipe_to_mealie_format`: instructions
are renumbered from zero; a dict instruction contributes its `text` value
(default `''`), any other value its `str()`. -/
def convertInstructions (instructions : List Json) : List InstructionEntry :=
  instructions.enum.map (fun p =>
    match p.2 with
    | .obj fields =>
        { id := toString p.1, title := "",
          text := ((Json.obj fields).get "text").getD (.str "") }
    | other => { id := toString p.1, title := "", text := .str (pyStr other) })

/-- The nutrition block: copied through with renamed keys, each with
default `''`. -/
def convertNutrition (nd : List (String × Json)) : NutritionOut :=
  { calories := ((Json.obj nd).get "calories").getD (.str "")
    protein := ((Json.obj nd).get "proteinContent").getD (.str "")
    fatContent := ((Json.obj nd).get "fatContent").getD (.str "")
    carbohydrateContent := ((Json.obj nd).get "carbohydrateContent").getD (.str "") }

/-- `MealieMenuCreator.convert_recipe_to_mealie_format`: build the Mealie
payload, threading the remote store through the per-ingredient
`ensure_ingredient_exists` calls.  The nutrition block is attached only
when the source's `nutrition` dict is truthy (nonempty). -/
def convert_recipe_to_mealie_format_st (s : RemoteState) (recipe : SourceRecipe) :
    MealieRecipe × RemoteState × List Effect :=
  let r := convertIngredients s recipe.recipeIngredient
  let payload : MealieRecipe :=
    { name := recipe.name.getD "Untitled Recipe"
      description := recipe.description.getD ""
      recipeYield := recipe.recipeYield.getD (.str "1")
      recipeIngredient := r.1
      recipeInstructions := convertInstructions recipe.recipeInstructions
      notes := []
      tags := []
      settings :=
        { public := true, showNutrition := true, showAssets := true,
          landscapeView := false, disableComments := false, disableAmount := false }
      nutrition :=
        if recipe.nutrition.isEmpty then none
        else some (convertNutrition recipe.nutrition) }
  (payload, r.2.1, r.2.2)

/-- `MealieMenuCreator.create_recipe_if_not_exists`: look the recipe up by
name first; only when absent translate it (with its ingredient side
effects) and `POST` it (the server appends the created record, assigning
an `id` and a `slug`, and returns it). -/
def create_recipe_if_not_exists_st (s : RemoteState) (recipe : SourceRecipe) :
    Option RemoteRecipe × RemoteState × List Effect :=
  let recipe_name := recipe.name.getD "Untitled Recipe"
  match MealieAPI.get_recipe_by_name_st s recipe_name with
  | some existing => (some existing, s, [.getRecipes])
  | none =>
      let r := convert_recipe_to_mealie_format_st s recipe
      let c := MealieAPI.create_recipe_st r.2.1 r.1
      (c.1, c.2.1, .getRecipes :: r.2.2 ++ c.2.2)

/-- `recipe_id = created_recipe.get('id') or created_recipe.get('slug')`
followed by `if recipe_id:`: the first of `id`, `slug` that is present and
nonempty (`None` and `''` are both falsy). -/
def resolveRecipeId (r : RemoteRecipe) : Option String :=
  match r.id with
  | some s => if s = "" then strTruthy r.slug else some s
  | none => strTruthy r.slug
where
  /-- Truthiness filter on an optional string. -/
  strTruthy : Option String → Option String
    | some s => if s = "" then none else some s
    | none => none

/-- The per-recipe body of the day loop of `process_weekly_menu`: create
the recipe if absent; when that yields a record, infer the meal type and,
if an identifier resolves, `POST` the meal-plan entry for the day's date;
otherwise skip meal-plan creation for this recipe. -/
def process_recipe_st (date : String) (s : RemoteState) (recipe : SourceRecipe) :
    RemoteState × List Effect :=
  let r := create_recipe_if_not_exists_st s recipe
  match r.1 with
  | none => (r.2.1, r.2.2)
  | some created =>
      let meal_type := extract_meal_type recipe
      match resolveRecipeId created with
      | none => (r.2.1, r.2.2)
      | some rid => (r.2.1, r.2.2 ++ [.postMealplan date meal_type rid])

/-- The recipe loop of one day. -/
def process_recipes_st (date : String) :
    RemoteState → List SourceRecipe → RemoteState × List Effect
  | s, [] => (s, [])
  | s, recipe :: rest =>
      let r1 := process_recipe_st date s recipe
      let r2 := process_recipes_st date r1.1 rest
      (r2.1, r1.2 ++ r2.2)

end MealieMenuCreator

/-- The input menu: `week` (default `1` applied during decoding) and the
per-day recipe lists (`menu_data.get(day, [])`). -/
structure Menu where
  week : Int := 1
  days : List (String × List SourceRecipe) := []

/-- `menu_data.get(day, [])`. -/
def Menu.dayRecipes (m : Menu) (day : String) : List SourceRecipe :=
  ((m.days.find? (fun p => p.1 = day)).map (·.2)).getD []

namespace MealieMenuCreator

/-- The lookup `week_dates[day]`. -/
def dateOf (dates : List (String × String)) (day : String) : String :=
  ((dates.find? (fun p => p.1 = day)).map (·.2)).getD ""

/-- The day loop of `process_weekly_menu` (a day with no recipes is only a
printed line; `process_recipes_st` of `[]` already contributes nothing). -/
def process_days_st (dates : List (String × String)) (menu : Menu) :
    RemoteState → List String → RemoteState × List Effect
  | s, [] => (s, [])
  | s, day :: rest =>
      let r1 := process_recipes_st (dateOf dates day) s (menu.dayRecipes day)
      let r2 := process_days_st dates menu r1.1 rest
      (r2.1, r1.2 ++ r2.2)

/-- `MealieMenuCreator.process_weekly_menu` (`year` defaults to 2025 at the
call site in `main`). -/
def process_weekly_menu_st (menu : Menu) (year : Int) (s : RemoteState) :
    RemoteState × List Effect :=
  let week_dates := calculate_week_dates year menu.week
  process_days_st week_dates menu s DAY_ORDER

end MealieMenuCreator

/-! ## The entry point (`main`) -/

/-- Where the menu JSON comes from, carrying the outcome of `json.load`
(and of decoding the parsed dict into `Menu`): a positional file argument,
or standard input when no argument is given.  `Except.error` is the
`JSONDecodeError` message. -/
inductive MenuSource where
  | file (parsed : Except String Menu)
  | stdin (parsed : Except String Menu)

/-- How a run of `main` ends. -/
inductive RunOutcome where
  /-- `sys.exit(1)` from the missing-token handler. -/
  | exitConfigError
  /-- `sys.exit(1)` from the stdin `except json.JSONDecodeError` handler. -/
  | exitParseError
  /-- An exception left the program: the interpreter prints the traceback
  (which carries the exception's message) and exits with status 1. -/
  | uncaughtException (msg : String)
  /-- `process_weekly_menu` ran to completion. -/
  | completed (finalState : RemoteState) (trace : List Effect)

/-- The HTTP requests a run issued. -/
def RunOutcome.apiTrace : RunOutcome → List Effect
  | .completed _ t => t
  | _ => []

/-- Did the process exit with a non-zero status? -/
def RunOutcome.exitsNonzero : RunOutcome → Bool
  | .completed _ _ => false
  | _ => true

/-- `main`: load the configuration (an empty or unset `MEALIE_API_TOKEN`
raises `ValueError`, caught and turned into `sys.exit(1)`); then load the
menu JSON — from the file named by the positional argument, where a
`json.JSONDecodeError` is uncaught, or from stdin, where it is caught and
turned into `sys.exit(1)`; only then build the API client and process the
menu against the remote store `s0`. -/
def main (api_token : String) (source : MenuSource) (s0 : RemoteState) : RunOutcome :=
  if api_token = "" then .exitConfigError
  else
    match source with
    | .file (.error msg) => .uncaughtException msg
    | .stdin (.error _) => .exitParseError
    | .file (.ok menu) | .stdin (.ok menu) =>
        let r := MealieMenuCreator.process_weekly_menu_st menu 2025 s0
        .completed r.1 r.2

/-- Is this effect a meal-plan `POST`? -/
def Effect.isMealplan : Effect → Bool
  | .postMealplan _ _ _ => true
  | _ => false

/-! ## Helper lemmas -/

/-- `find?` returns the `i`-th element when it satisfies the predicate and
no earlier element does. -/
theorem find?_of_first {α : Type} (p : α → Bool) :
    ∀ (l : List α) (i : Nat) (hi : i < l.length),
      p (l.get ⟨i, hi⟩) = true →
      (∀ j (hj : j < i), p (l.get ⟨j, Nat.lt_trans hj hi⟩) = false) →
      l.find? p = some (l.get ⟨i, hi⟩) := by
  intro l
  induction l with
  | nil => intro i hi; exact absurd hi (Nat.not_lt_zero i)
  | cons a t ih =>
      intro i hi hp hfirst
      cases i with
      | zero => exact List.find?_cons_of_pos _ hp
      | succ n =>
          have ha : p a = false := hfirst 0 (Nat.succ_pos n)
          rw [List.find?_cons_of_neg _ (by simp [ha])]
          exact ih n (Nat.lt_of_succ_lt_succ hi) hp
            (fun j hj => hfirst (j + 1) (Nat.succ_lt_succ hj))

/-- `ensure_ingredient_exists` touches only the food collection. -/
theorem ensure_preserves (s : RemoteState) (name : String) :
    (MealieAPI.ensure_ingredient_exists_st s name).2.1.recipes = s.recipes ∧
    (MealieAPI.ensure_ingredient_exists_st s name).2.1.foodPostFails = s.foodPostFails ∧
    (MealieAPI.ensure_ingredient_exists_st s name).2.1.recipePostFails = s.recipePostFails := by
  unfold MealieAPI.ensure_ingredient_exists_st MealieAPI.create_ingredient_st
  cases MealieAPI.get_ingredient_by_name_st s name with
  | some f => exact ⟨rfl, rfl, rfl⟩
  | none => by_cases hb : name ∈ s.foodPostFails <;> simp [hb]

/-- `ensure_ingredient_exists` never posts a meal-plan entry. -/
theorem ensure_no_mealplan (s : RemoteState) (name : String) :
    ∀ e ∈ (MealieAPI.ensure_ingredient_exists_st s name).2.2, e.isMealplan = false := by
  unfold MealieAPI.ensure_ingredient_exists_st MealieAPI.create_ingredient_st
  cases MealieAPI.get_ingredient_by_name_st s name with
  | some f => simp [Effect.isMealplan]
  | none => by_cases hb : name ∈ s.foodPostFails <;> simp [hb, Effect.isMealplan]

/-- The ingredient loop touches only the food collection. -/
theorem convertIngredients_preserves (lines : List String) :
    ∀ s : RemoteState,
      (MealieMenuCreator.convertIngredients s lines).2.1.recipes = s.recipes ∧
      (MealieMenuCreator.convertIngredients s lines).2.1.foodPostFails = s.foodPostFails ∧
      (MealieMenuCreator.convertIngredients s lines).2.1.recipePostFails = s.recipePostFails := by
  induction lines with
  | nil => intro s; exact ⟨rfl, rfl, rfl⟩
  | cons line rest ih =>
      intro s
      have h1 := ensure_preserves s (MealieMenuCreator.parse_ingredient_text line).name
      have h2 := ih (MealieAPI.ensure_ingredient_exists_st s
        (MealieMenuCreator.parse_ingredient_text line).name).2.1
      unfold MealieMenuCreator.convertIngredients
      exact ⟨h2.1.trans h1.1, h2.2.1.trans h1.2.1, h2.2.2.trans h1.2.2⟩

/-- The ingredient loop never posts a meal-plan entry. -/
theorem convertIngredients_no_mealplan (lines : List String) :
    ∀ s : RemoteState, ∀ e ∈ (MealieMenuCreator.convertIngredients s lines).2.2,
      e.isMealplan = false := by
  induction lines with
  | nil => intro s e he; exact absurd he (List.not_mem_nil e)
  | cons line rest ih =>
      intro s e he
      unfold MealieMenuCreator.convertIngredients at he
      simp only [List.mem_append] at he
      rcases he with h | h
      · exact ensure_no_mealplan s _ e h
      · exact ih _ e h

/-! ## Claim C1 -/

/-- Claim C1, counterexample: a transport failure on a listing call is not
converted into an empty sequence — `requests.exceptions.ConnectionError`
is not a subclass of `HTTPError`, so it escapes the `except` clause of
`get_ingredients` and `get_recipes` and propagates to the caller. -/
theorem C1_counterexample :
    MealieAPI.get_ingredients .transportError = .error .connectionError ∧
    MealieAPI.get_recipes .transportError = .error .connectionError :=
  ⟨rfl, rfl⟩

/-- Claim C1 as amended: on both listing operations a non-2xx status is
caught at the call site and converted into an empty sequence, while a
transport failure propagates as an exception. -/
theorem C1_amended :
    MealieAPI.get_ingredients .httpError = .ok [] ∧
    MealieAPI.get_recipes .httpError = .ok (.arr []) ∧
    MealieAPI.get_ingredients .transportError = .error .connectionError ∧
    MealieAPI.get_recipes .transportError = .error .connectionError :=
  ⟨rfl, rfl, rfl, rfl⟩

/-! ## Claim C2 -/

/-- The claim's characterisation of the first scheduled day: the Monday of
ISO week 1 (January 4 minus the weekday index of January 4) plus
`week - 1` weeks. -/
def weekMonday (year week : Int) : Int :=
  daysFromCivil year 1 4 - pyWeekday (daysFromCivil year 1 4) + 7 * (week - 1)

/-- Claim C2: for every year and week in `datetime`'s (format-exact)
range, `calculate_week_dates` maps the seven day names, in order
monday…sunday, to the formatted dates of seven consecutive days starting
at `weekMonday`, which is indeed a Monday; in particular year 2025, week 1
maps `monday` to `2024-12-30`. -/
theorem C2_calculate_week_dates :
    (∀ (year week : Int), 1000 ≤ year → year ≤ 9998 → 1 ≤ week → week ≤ 53 →
      MealieMenuCreator.calculate_week_dates year week =
        [("monday", formatDate (weekMonday year week)),
         ("tuesday", formatDate (weekMonday year week + 1)),
         ("wednesday", formatDate (weekMonday year week + 2)),
         ("thursday", formatDate (weekMonday year week + 3)),
         ("friday", formatDate (weekMonday year week + 4)),
         ("saturday", formatDate (weekMonday year week + 5)),
         ("sunday", formatDate (weekMonday year week + 6))] ∧
      pyWeekday (weekMonday year week) = 0) ∧
    MealieMenuCreator.dateOf (MealieMenuCreator.calculate_week_dates 2025 1) "monday" =
      "2024-12-30" := by
  refine ⟨fun year week _ _ _ _ => ⟨?_, ?_⟩, by decide⟩
  · have henum : MealieMenuCreator.DAY_ORDER.enum =
        [(0, "monday"), (1, "tuesday"), (2, "wednesday"), (3, "thursday"),
         (4, "friday"), (5, "saturday"), (6, "sunday")] := rfl
    unfold MealieMenuCreator.calculate_week_dates weekMonday
    rw [henum]
    simp [List.map]
  · unfold weekMonday pyWeekday
    have h1 : daysFromCivil year 1 4 - (daysFromCivil year 1 4 + 3) % 7 +
        7 * (week - 1) + 3 =
        7 * ((daysFromCivil year 1 4 + 3) / 7 + (week - 1)) := by omega
    rw [h1]
    omega

/-- Claim C2, witness: the bounds hold at year 2025, week 1, and the
computed week runs from `2024-12-30` (a Monday) to `2025-01-05`. -/
theorem C2_witness :
    MealieMenuCreator.calculate_week_dates 2025 1 =
      [("monday", formatDate (weekMonday 2025 1)),
       ("tuesday", formatDate (weekMonday 2025 1 + 1)),
       ("wednesday", formatDate (weekMonday 2025 1 + 2)),
       ("thursday", formatDate (weekMonday 2025 1 + 3)),
       ("friday", formatDate (weekMonday 2025 1 + 4)),
       ("saturday", formatDate (weekMonday 2025 1 + 5)),
       ("sunday", formatDate (weekMonday 2025 1 + 6))] ∧
    pyWeekday (weekMonday 2025 1) = 0 :=
  C2_calculate_week_dates.1 2025 1 (by norm_num) (by norm_num) (by norm_num)
    (by norm_num)

/-! ## Claim C3 -/

/-- Claim C3: `extract_meal_type` yields the mapped value of the first
`MEAL_TYPE_MAP` key (in declaration order) occurring in the lowercased
keywords string; failing that, of the first key occurring in the lowercased
description; and `"dinner"` when neither text contains any key.  Keywords
containing `"reggeli"` in any letter case always yield `"breakfast"`,
since `"reggeli"` is the first key. -/
theorem C3_extract_meal_type :
    (∀ (r : SourceRecipe) (ks : String) (i : Nat)
      (_hk : r.keywords.getD (.str "") = .str ks)
      (hi : i < MealieMenuCreator.MEAL_TYPE_MAP.length),
      pyContains (pyLower ks) (MealieMenuCreator.MEAL_TYPE_MAP.get ⟨i, hi⟩).1 = true →
      (∀ j (hj : j < i), pyContains (pyLower ks)
        (MealieMenuCreator.MEAL_TYPE_MAP.get ⟨j, Nat.lt_trans hj hi⟩).1 = false) →
      MealieMenuCreator.extract_meal_type r =
        (MealieMenuCreator.MEAL_TYPE_MAP.get ⟨i, hi⟩).2) ∧
    (∀ (r : SourceRecipe) (ks : String) (i : Nat)
      (_hk : r.keywords.getD (.str "") = .str ks)
      (_hn : ∀ p ∈ MealieMenuCreator.MEAL_TYPE_MAP, pyContains (pyLower ks) p.1 = false)
      (hi : i < MealieMenuCreator.MEAL_TYPE_MAP.length),
      pyContains (pyLower (r.description.getD ""))
        (MealieMenuCreator.MEAL_TYPE_MAP.get ⟨i, hi⟩).1 = true →
      (∀ j (hj : j < i), pyContains (pyLower (r.description.getD ""))
        (MealieMenuCreator.MEAL_TYPE_MAP.get ⟨j, Nat.lt_trans hj hi⟩).1 = false) →
      MealieMenuCreator.extract_meal_type r =
        (MealieMenuCreator.MEAL_TYPE_MAP.get ⟨i, hi⟩).2) ∧
    (∀ (r : SourceRecipe) (ks : String),
      r.keywords.getD (.str "") = .str ks →
      (∀ p ∈ MealieMenuCreator.MEAL_TYPE_MAP, pyContains (pyLower ks) p.1 = false) →
      (∀ p ∈ MealieMenuCreator.MEAL_TYPE_MAP,
        pyContains (pyLower (r.description.getD "")) p.1 = false) →
      MealieMenuCreator.extract_meal_type r = "dinner") ∧
    (∀ (r : SourceRecipe) (ks : String),
      r.keywords.getD (.str "") = .str ks →
      pyContains (pyLower ks) "reggeli" = true →
      MealieMenuCreator.extract_meal_type r = "breakfast") := by
  have hscan : ∀ (text : String) (i : Nat)
      (hi : i < MealieMenuCreator.MEAL_TYPE_MAP.length),
      pyContains text (MealieMenuCreator.MEAL_TYPE_MAP.get ⟨i, hi⟩).1 = true →
      (∀ j (hj : j < i), pyContains text
        (MealieMenuCreator.MEAL_TYPE_MAP.get ⟨j, Nat.lt_trans hj hi⟩).1 = false) →
      MealieMenuCreator.findMealType text =
        some (MealieMenuCreator.MEAL_TYPE_MAP.get ⟨i, hi⟩).2 := by
    intro text i hi hp hfirst
    unfold MealieMenuCreator.findMealType
    rw [find?_of_first (fun p => pyContains text p.1)
      MealieMenuCreator.MEAL_TYPE_MAP i hi hp hfirst]
    rfl
  have hnoscan : ∀ (text : String),
      (∀ p ∈ MealieMenuCreator.MEAL_TYPE_MAP, pyContains text p.1 = false) →
      MealieMenuCreator.findMealType text = none := by
    intro text h
    unfold MealieMenuCreator.findMealType
    rw [List.find?_eq_none.2 (fun p hp => by simp [h p hp])]
    rfl
  refine ⟨?_, ?_, ?_, ?_⟩
  · intro r ks i hk hi hp hfirst
    simp only [MealieMenuCreator.extract_meal_type, hk]
    rw [hscan (pyLower ks) i hi hp hfirst]
  · intro r ks i hk hnone hi hp hfirst
    simp only [MealieMenuCreator.extract_meal_type, hk]
    rw [hnoscan (pyLower ks) hnone]
    simp only [hscan (pyLower (r.description.getD "")) i hi hp hfirst, Option.getD_some]
  · intro r ks hk hnone hdesc
    simp only [MealieMenuCreator.extract_meal_type, hk]
    rw [hnoscan (pyLower ks) hnone]
    simp only [hnoscan (pyLower (r.description.getD "")) hdesc, Option.getD_none]
  · intro r ks hk hp
    simp only [MealieMenuCreator.extract_meal_type, hk]
    rw [hscan (pyLower ks) 0 (by decide) hp (fun j hj => absurd hj (Nat.not_lt_zero j))]
    rfl

/-- Claim C3, witness: mixed-case keywords containing `reggeli` yield
`breakfast`. -/
theorem C3_witness :
    MealieMenuCreator.extract_meal_type { keywords := some (.str "Reggeli, gyors") } =
      "breakfast" :=
  C3_extract_meal_type.2.2.2 { keywords := some (.str "Reggeli, gyors") }
    "Reggeli, gyors" rfl (by decide)

/-! ## Claim C6 -/

/-- Claim C6, counterexample: in the identifier-keyed object shape a falsy
scalar value is dropped by the fallback filter, not coerced into
`{name: str(entry)}` — the payload `{'a': ''}` normalises to `[]`, not to
`[{'name': ''}]` as the claim requires. -/
theorem C6_counterexample :
    MealieAPI.get_ingredients (.success (Json.obj [("a", Json.str "")])) = .ok [] ∧
    ([] : List Json) ≠ [Json.obj [("name", Json.str (pyStr (Json.str ""))) ]] := by
  exact ⟨rfl, by simp⟩

/-- Claim C6 as amended: `get_ingredients` normalises all three payload
shapes into one sequence of records; in the raw-array and `items`-array
shapes every non-record entry is coerced into `{name: str(entry)}`, while
in the identifier-keyed object shape falsy scalar values (empty string,
zero, false) are dropped and every remaining non-record value is coerced
into `{name: str(value)}`. -/
theorem C6_amended :
    (∀ items, MealieAPI.get_ingredients (.success (.arr items)) =
      .ok (items.map coerceFood)) ∧
    (∀ fields items, (Json.obj fields).get "items" = some (.arr items) →
      MealieAPI.get_ingredients (.success (.obj fields)) =
        .ok (items.map coerceFood)) ∧
    (∀ fields, (∀ items, (Json.obj fields).get "items" ≠ some (.arr items)) →
      MealieAPI.get_ingredients (.success (.obj fields)) =
        .ok (((fields.map (·.2)).filter keepFood).map coerceFood)) ∧
    (∀ j, j.isObj = false →
      coerceFood j = .obj [("name", .str (pyStr j))]) ∧
    (∀ j, j.isScalar = true → j.truthy = false → keepFood j = false) := by
  refine ⟨fun items => rfl, fun fields items h => ?_, fun fields h => ?_,
    fun j hj => by simp [coerceFood, hj], fun j h1 h2 => by simp [keepFood, h1, h2]⟩
  · simp [MealieAPI.get_ingredients, MealieAPI.normalizeFoods, h]
  · unfold MealieAPI.get_ingredients MealieAPI.normalizeFoods
    cases hit : (Json.obj fields).get "items" with
    | none => simp
    | some v =>
        cases v with
        | arr items => exact absurd hit (h items)
        | null => simp
        | bool b => simp
        | int n => simp
        | str s => simp
        | obj o => simp

/-- Claim C6 amended, witness: a payload with an `items` array holding the
bare string `só` normalises to the coerced singleton record. -/
theorem C6_witness :
    MealieAPI.get_ingredients (.success (.obj [("items", .arr [.str "só"])])) =
      .ok [Json.obj [("name", .str "só")]] :=
  C6_amended.2.1 [("items", .arr [.str "só"])] [.str "só"] rfl

/-! ## Claim C8 -/

/-- Claim C8: `parse_ingredient_text` splits a leading numeric-and-unit
token from the trailing name (`"30 g ajvár"` → quantity `"30 g"`, name
`"ajvár"`); with no leading numeric token the quantity is empty and the
whole trimmed line is the name (`"a pinch of salt"`, and in general any
line whose stripped text does not start with a digit, dot or hyphen). -/
theorem C8_parse_ingredient_text :
    MealieMenuCreator.parse_ingredient_text "30 g ajvár" =
      ⟨"30 g", "ajvár", "30 g ajvár"⟩ ∧
    MealieMenuCreator.parse_ingredient_text "a pinch of salt" =
      ⟨"", "a pinch of salt", "a pinch of salt"⟩ ∧
    ∀ s, (pyStrip s).data.takeWhile isQtyChar = [] →
      MealieMenuCreator.parse_ingredient_text s = ⟨"", pyStrip s, s⟩ := by
  refine ⟨by decide, by decide, fun s h => ?_⟩
  simp [MealieMenuCreator.parse_ingredient_text, regexMatch, h]

/-- Claim C8, witness: the line `"tej"` has no leading numeric token and
parses to an empty quantity with the whole line as the name. -/
theorem C8_witness :
    (pyStrip "tej").data.takeWhile isQtyChar = [] ∧
    MealieMenuCreator.parse_ingredient_text "tej" = ⟨"", "tej", "tej"⟩ :=
  ⟨by decide, by
    have h := C8_parse_ingredient_text.2.2 "tej" (by decide)
    simpa using h⟩

/-! ## Claim C9 -/

/-- Claim C9: on listings whose entries are well formed (no truthy
non-string name values, on which the source would raise), both name
lookups succeed, and find an entity exactly when some entry's name —
lowercased then stripped — equals the lowercased, stripped query; and the
query `"  Ajvár "` carries the same key as the stored name `"ajvár"`. -/
theorem C9_name_matching :
    (∀ (entries : List Json) (name : String),
      (∀ e ∈ entries, goodFoodEntry e = true) →
      ∃ r, MealieAPI.get_ingredient_by_name entries name = .ok r ∧
        (r.isSome ↔ ∃ e ∈ entries, foodEntryKey e = some (nameKey name))) ∧
    (∀ (entries : List Json) (name : String),
      (∀ e ∈ entries, goodRecipeEntry e = true) →
      ∃ r, MealieAPI.get_recipe_by_name entries name = .ok r ∧
        (r.isSome ↔ ∃ e ∈ entries, recipeEntryKey e = some (nameKey name))) ∧
    nameKey "  Ajvár " = nameKey "ajvár" := by
  refine ⟨?_, ?_, by decide⟩
  · intro entries name h
    induction entries with
    | nil => exact ⟨none, rfl, by simp⟩
    | cons e rest ih =>
        have hgood := h e (List.mem_cons_self e rest)
        obtain ⟨r, hr, hiff⟩ := ih (fun x hx => h x (List.mem_cons_of_mem e hx))
        cases e with
        | obj fields =>
            cases hnv : entryNameValue fields with
            | str s =>
                by_cases heq : nameKey s = nameKey name
                · refine ⟨some (.obj fields), ?_, ?_⟩
                  · simp [MealieAPI.get_ingredient_by_name, MealieAPI.findIngredient,
                      hnv, heq]
                  · simp [foodEntryKey, hnv, heq]
                · refine ⟨r, ?_, ?_⟩
                  · simpa [MealieAPI.get_ingredient_by_name, MealieAPI.findIngredient,
                      hnv, heq] using hr
                  · rw [hiff]
                    simp [foodEntryKey, hnv, heq]
            | null => simp [goodFoodEntry, hnv] at hgood
            | bool b => simp [goodFoodEntry, hnv] at hgood
            | int n => simp [goodFoodEntry, hnv] at hgood
            | arr items => simp [goodFoodEntry, hnv] at hgood
            | obj o => simp [goodFoodEntry, hnv] at hgood
        | str s =>
            by_cases heq : nameKey s = nameKey name
            · refine ⟨some (.obj [("name", .str s)]), ?_, ?_⟩
              · simp [MealieAPI.get_ingredient_by_name, MealieAPI.findIngredient, heq]
              · simp [foodEntryKey, heq]
            · refine ⟨r, ?_, ?_⟩
              · simpa [MealieAPI.get_ingredient_by_name, MealieAPI.findIngredient,
                  heq] using hr
              · rw [hiff]
                simp [foodEntryKey, heq]
        | null => exact ⟨r, by simpa [MealieAPI.get_ingredient_by_name,
            MealieAPI.findIngredient] using hr, by rw [hiff]; simp [foodEntryKey]⟩
        | bool b => exact ⟨r, by simpa [MealieAPI.get_ingredient_by_name,
            MealieAPI.findIngredient] using hr, by rw [hiff]; simp [foodEntryKey]⟩
        | int n => exact ⟨r, by simpa [MealieAPI.get_ingredient_by_name,
            MealieAPI.findIngredient] using hr, by rw [hiff]; simp [foodEntryKey]⟩
        | arr items => exact ⟨r, by simpa [MealieAPI.get_ingredient_by_name,
            MealieAPI.findIngredient] using hr, by rw [hiff]; simp [foodEntryKey]⟩
  · intro entries name h
    induction entries with
    | nil => exact ⟨none, rfl, by simp⟩
    | cons e rest ih =>
        have hgood := h e (List.mem_cons_self e rest)
        obtain ⟨r, hr, hiff⟩ := ih (fun x hx => h x (List.mem_cons_of_mem e hx))
        cases e with
        | obj fields =>
            cases hnv : ((Json.obj fields).get "name").getD (.str "") with
            | str s =>
                by_cases heq : nameKey s = nameKey name
                · refine ⟨some (.obj fields), ?_, ?_⟩
                  · simp [MealieAPI.get_recipe_by_name, MealieAPI.findRecipe, hnv, heq]
                  · simp [recipeEntryKey, hnv, heq]
                · refine ⟨r, ?_, ?_⟩
                  · simpa [MealieAPI.get_recipe_by_name, MealieAPI.findRecipe,
                      hnv, heq] using hr
                  · rw [hiff]
                    simp [recipeEntryKey, hnv, heq]
            | null => simp [goodRecipeEntry, hnv] at hgood
            | bool b => simp [goodRecipeEntry, hnv] at hgood
            | int n => simp [goodRecipeEntry, hnv] at hgood
            | arr items => simp [goodRecipeEntry, hnv] at hgood
            | obj o => simp [goodRecipeEntry, hnv] at hgood
        | null => simp [goodRecipeEntry] at hgood
        | bool b => simp [goodRecipeEntry] at hgood
        | int n => simp [goodRecipeEntry] at hgood
        | str s => simp [goodRecipeEntry] at hgood
        | arr items => simp [goodRecipeEntry] at hgood

/-- Claim C9, witness: the query `"  Ajvár "` finds the stored ingredient
`"ajvár"`. -/
theorem C9_witness :
    (∀ e ∈ [Json.obj [("name", Json.str "ajvár")]], goodFoodEntry e = true) ∧
    ∃ r, MealieAPI.get_ingredient_by_name [Json.obj [("name", Json.str "ajvár")]]
        "  Ajvár " = .ok r ∧
      (r.isSome ↔ ∃ e ∈ [Json.obj [("name", Json.str "ajvár")]],
        foodEntryKey e = some (nameKey "  Ajvár ")) :=
  ⟨by decide, C9_name_matching.1 [Json.obj [("name", Json.str "ajvár")]]
    "  Ajvár " (by decide)⟩

/-! ## Claim C4 -/

/-- When the lookup misses and the server does not reject the `POST`,
`create_recipe_if_not_exists` appends exactly one recipe, named after the
source recipe, and changes nothing else about the recipe collection. -/
theorem create_appends (s : RemoteState) (recipe : SourceRecipe)
    (h : MealieAPI.get_recipe_by_name_st s (recipe.name.getD "Untitled Recipe") = none)
    (hf : recipe.name.getD "Untitled Recipe" ∉ s.recipePostFails) :
    ∃ created : RemoteRecipe,
      created.name = recipe.name.getD "Untitled Recipe" ∧
      (MealieMenuCreator.create_recipe_if_not_exists_st s recipe).2.1.recipes =
        s.recipes ++ [created] ∧
      (MealieMenuCreator.create_recipe_if_not_exists_st s recipe).2.1.recipePostFails =
        s.recipePostFails := by
  have hpres := convertIngredients_preserves recipe.recipeIngredient s
  simp only [MealieMenuCreator.create_recipe_if_not_exists_st, h,
    MealieMenuCreator.convert_recipe_to_mealie_format_st, MealieAPI.create_recipe_st]
  rw [if_neg (by rw [hpres.2.2]; exact hf)]
  exact ⟨_, rfl, by rw [hpres.1], hpres.2.2⟩

/-- Claim C4: creation is existence-gated and idempotent — a recipe whose
name already matches returns the existing record with no state change and
only the lookup `GET`; an ingredient found by name is returned unchanged
with no `POST`; re-running `ensure_ingredient_exists` on its own result
state changes nothing; and after a successful
`create_recipe_if_not_exists`, running it again finds the stored recipe by
name and performs only the lookup `GET` on an unchanged store. -/
theorem C4_idempotence :
    (∀ (s : RemoteState) (recipe : SourceRecipe) (existing : RemoteRecipe),
      MealieAPI.get_recipe_by_name_st s (recipe.name.getD "Untitled Recipe") =
        some existing →
      MealieMenuCreator.create_recipe_if_not_exists_st s recipe =
        (some existing, s, [Effect.getRecipes])) ∧
    (∀ (s : RemoteState) (name : String) (f : Food),
      MealieAPI.get_ingredient_by_name_st s name = some f →
      MealieAPI.ensure_ingredient_exists_st s name = (some f, s, [Effect.getFoods])) ∧
    (∀ (s : RemoteState) (name : String),
      (MealieAPI.ensure_ingredient_exists_st
        (MealieAPI.ensure_ingredient_exists_st s name).2.1 name).2.1 =
        (MealieAPI.ensure_ingredient_exists_st s name).2.1) ∧
    (∀ (s : RemoteState) (recipe : SourceRecipe),
      recipe.name.getD "Untitled Recipe" ∉ s.recipePostFails →
      ∃ r, MealieMenuCreator.create_recipe_if_not_exists_st
          (MealieMenuCreator.create_recipe_if_not_exists_st s recipe).2.1 recipe =
        (some r, (MealieMenuCreator.create_recipe_if_not_exists_st s recipe).2.1,
          [Effect.getRecipes])) := by
  have hfound : ∀ (s : RemoteState) (recipe : SourceRecipe) (existing : RemoteRecipe),
      MealieAPI.get_recipe_by_name_st s (recipe.name.getD "Untitled Recipe") =
        some existing →
      MealieMenuCreator.create_recipe_if_not_exists_st s recipe =
        (some existing, s, [Effect.getRecipes]) := by
    intro s recipe existing h
    simp only [MealieMenuCreator.create_recipe_if_not_exists_st, h]
  have hens : ∀ (s : RemoteState) (name : String) (f : Food),
      MealieAPI.get_ingredient_by_name_st s name = some f →
      MealieAPI.ensure_ingredient_exists_st s name = (some f, s, [Effect.getFoods]) := by
    intro s name f h
    unfold MealieAPI.ensure_ingredient_exists_st
    rw [h]
  refine ⟨hfound, hens, ?_, ?_⟩
  · intro s name
    cases h : MealieAPI.get_ingredient_by_name_st s name with
    | some f => simp [hens s name f h]
    | none =>
        by_cases hb : name ∈ s.foodPostFails
        · have h1 : (MealieAPI.ensure_ingredient_exists_st s name).2.1 = s := by
            simp only [MealieAPI.ensure_ingredient_exists_st,
              MealieAPI.create_ingredient_st, h, if_pos hb]
          rw [h1]
          exact h1
        · have h1 : (MealieAPI.ensure_ingredient_exists_st s name).2.1 =
              { s with foods := s.foods ++
                [⟨name, "Auto-created ingredient: " ++ name⟩] } := by
            simp only [MealieAPI.ensure_ingredient_exists_st,
              MealieAPI.create_ingredient_st, h, if_neg hb]
          rw [h1]
          have h2 : MealieAPI.get_ingredient_by_name_st
              { s with foods := s.foods ++
                [⟨name, "Auto-created ingredient: " ++ name⟩] } name =
              some ⟨name, "Auto-created ingredient: " ++ name⟩ := by
            unfold MealieAPI.get_ingredient_by_name_st at h ⊢
            rw [List.find?_append, h]
            simp
          rw [hens _ name _ h2]
  · intro s recipe hf
    cases h : MealieAPI.get_recipe_by_name_st s
        (recipe.name.getD "Untitled Recipe") with
    | some existing =>
        refine ⟨existing, ?_⟩
        rw [hfound s recipe existing h]
        exact hfound s recipe existing h
    | none =>
        obtain ⟨created, hname, hrecs, _⟩ := create_appends s recipe h hf
        have h2 : MealieAPI.get_recipe_by_name_st
            (MealieMenuCreator.create_recipe_if_not_exists_st s recipe).2.1
            (recipe.name.getD "Untitled Recipe") = some created := by
          unfold MealieAPI.get_recipe_by_name_st at h ⊢
          rw [hrecs, List.find?_append, h]
          simp [hname]
        exact ⟨created, hfound _ recipe created h2⟩

/-- Claim C4, witness: with the recipe `Palacsinta` already stored, a menu
recipe named `" palacsinta "` (same name up to case and whitespace) is
returned as the existing record, with no creation and no translation —
only the lookup `GET` is issued and the store is unchanged. -/
theorem C4_witness :
    MealieMenuCreator.create_recipe_if_not_exists_st
      { recipes := [⟨"Palacsinta", some "7", none⟩] }
      { name := some " palacsinta " } =
    (some ⟨"Palacsinta", some "7", none⟩,
      { recipes := [⟨"Palacsinta", some "7", none⟩] }, [Effect.getRecipes]) :=
  C4_idempotence.1 { recipes := [⟨"Palacsinta", some "7", none⟩] }
    { name := some " palacsinta " } ⟨"Palacsinta", some "7", none⟩ (by decide)

/-! ## Claim C5 -/

/-- Claim C5: once the configuration is loaded, a JSON parse failure on
either menu path is fatal before any network activity — the file path dies
on the uncaught `JSONDecodeError` (traceback and exit status 1), the stdin
path on the `sys.exit(1)` of its handler; in both cases the exit status is
non-zero and not a single API request is issued. -/
theorem C5_malformed_json_fatal :
    ∀ (token msg : String) (s0 : RemoteState), token ≠ "" →
      main token (.file (.error msg)) s0 = .uncaughtException msg ∧
      (main token (.file (.error msg)) s0).exitsNonzero = true ∧
      (main token (.file (.error msg)) s0).apiTrace = [] ∧
      main token (.stdin (.error msg)) s0 = .exitParseError ∧
      (main token (.stdin (.error msg)) s0).exitsNonzero = true ∧
      (main token (.stdin (.error msg)) s0).apiTrace = [] := by
  intro token msg s0 h
  have h1 : main token (.file (.error msg)) s0 = .uncaughtException msg := by
    simp [main, h]
  have h2 : main token (.stdin (.error msg)) s0 = .exitParseError := by
    simp [main, h]
  exact ⟨h1, by rw [h1]; rfl, by rw [h1]; rfl, h2, by rw [h2]; rfl, by rw [h2]; rfl⟩

/-- Claim C5, witness: with a configured token, a concrete parse failure on
each path terminates without issuing any request. -/
theorem C5_witness :
    main "secret-token"
      (.file (.error "Expecting value: line 1 column 1 (char 0)")) {} =
      .uncaughtException "Expecting value: line 1 column 1 (char 0)" ∧
    (main "secret-token"
      (.stdin (.error "Expecting value: line 1 column 1 (char 0)")) {}).apiTrace = [] := by
  have h := C5_malformed_json_fatal "secret-token"
    "Expecting value: line 1 column 1 (char 0)" {} (by decide)
  exact ⟨h.1, h.2.2.2.2.2⟩

/-! ## Claim C7 -/

/-- `create_recipe` issues only the one recipe `POST`. -/
theorem create_recipe_st_no_mealplan (s : RemoteState) (p : MealieRecipe) :
    ∀ e ∈ (MealieAPI.create_recipe_st s p).2.2, e.isMealplan = false := by
  unfold MealieAPI.create_recipe_st
  by_cases hc : p.name ∈ s.recipePostFails <;> simp [hc, Effect.isMealplan]

/-- `create_recipe_if_not_exists` never posts a meal-plan entry itself. -/
theorem create_no_mealplan (s : RemoteState) (recipe : SourceRecipe) :
    ∀ e ∈ (MealieMenuCreator.create_recipe_if_not_exists_st s recipe).2.2,
      e.isMealplan = false := by
  cases h : MealieAPI.get_recipe_by_name_st s (recipe.name.getD "Untitled Recipe") with
  | some existing =>
      simp [MealieMenuCreator.create_recipe_if_not_exists_st, h, Effect.isMealplan]
  | none =>
      simp only [MealieMenuCreator.create_recipe_if_not_exists_st, h,
        MealieMenuCreator.convert_recipe_to_mealie_format_st]
      intro e he
      simp only [List.mem_cons, List.mem_append] at he
      rcases he with (he | he) | he
      · rw [he]; rfl
      · exact convertIngredients_no_mealplan recipe.recipeIngredient s e he
      · exact create_recipe_st_no_mealplan _ _ e he

/-- Claim C7: the meal-plan entry is posted with the identifier resolved as
`id`, falling back to `slug`, both with Python truthiness; when neither
resolves, meal-plan creation for that recipe is skipped (no meal-plan
`POST` at all on that recipe) and the loops continue with the remaining
recipes and days. -/
theorem C7_mealplan_identifier :
    (∀ (date : String) (s : RemoteState) (recipe : SourceRecipe)
      (created : RemoteRecipe),
      (MealieMenuCreator.create_recipe_if_not_exists_st s recipe).1 = some created →
      MealieMenuCreator.resolveRecipeId created = none →
      MealieMenuCreator.process_recipe_st date s recipe =
        ((MealieMenuCreator.create_recipe_if_not_exists_st s recipe).2.1,
          (MealieMenuCreator.create_recipe_if_not_exists_st s recipe).2.2) ∧
      (∀ e ∈ (MealieMenuCreator.process_recipe_st date s recipe).2,
        e.isMealplan = false)) ∧
    (∀ (date : String) (s : RemoteState) (recipe : SourceRecipe)
      (created : RemoteRecipe) (rid : String),
      (MealieMenuCreator.create_recipe_if_not_exists_st s recipe).1 = some created →
      MealieMenuCreator.resolveRecipeId created = some rid →
      MealieMenuCreator.process_recipe_st date s recipe =
        ((MealieMenuCreator.create_recipe_if_not_exists_st s recipe).2.1,
          (MealieMenuCreator.create_recipe_if_not_exists_st s recipe).2.2 ++
            [Effect.postMealplan date (MealieMenuCreator.extract_meal_type recipe) rid])) ∧
    (∀ (date : String) (s : RemoteState) (recipe : SourceRecipe)
      (rest : List SourceRecipe),
      MealieMenuCreator.process_recipes_st date s (recipe :: rest) =
        ((MealieMenuCreator.process_recipes_st date
            (MealieMenuCreator.process_recipe_st date s recipe).1 rest).1,
          (MealieMenuCreator.process_recipe_st date s recipe).2 ++
            (MealieMenuCreator.process_recipes_st date
              (MealieMenuCreator.process_recipe_st date s recipe).1 rest).2)) ∧
    (∀ (dates : List (String × String)) (menu : Menu) (s : RemoteState)
      (day : String) (rest : List String),
      MealieMenuCreator.process_days_st dates menu s (day :: rest) =
        ((MealieMenuCreator.process_days_st dates menu
            (MealieMenuCreator.process_recipes_st
              (MealieMenuCreator.dateOf dates day) s (menu.dayRecipes day)).1 rest).1,
          (MealieMenuCreator.process_recipes_st
              (MealieMenuCreator.dateOf dates day) s (menu.dayRecipes day)).2 ++
            (MealieMenuCreator.process_days_st dates menu
              (MealieMenuCreator.process_recipes_st
                (MealieMenuCreator.dateOf dates day) s (menu.dayRecipes day)).1 rest).2)) := by
  refine ⟨?_, ?_, fun date s recipe rest => rfl, fun dates menu s day rest => rfl⟩
  · intro date s recipe created h1 h2
    have hproc : MealieMenuCreator.process_recipe_st date s recipe =
        ((MealieMenuCreator.create_recipe_if_not_exists_st s recipe).2.1,
          (MealieMenuCreator.create_recipe_if_not_exists_st s recipe).2.2) := by
      simp only [MealieMenuCreator.process_recipe_st, h1, h2]
    refine ⟨hproc, ?_⟩
    rw [hproc]
    exact create_no_mealplan s recipe
  · intro date s recipe created rid h1 h2
    simp only [MealieMenuCreator.process_recipe_st, h1, h2]

/-- Claim C7, witness: an already-stored recipe record carrying neither
`id` nor `slug` skips meal-plan creation — the step issues only the lookup
`GET`. -/
theorem C7_witness :
    MealieMenuCreator.process_recipe_st "2025-01-06"
      { recipes := [⟨"Rántotta", none, none⟩] } { name := some "Rántotta" } =
      ({ recipes := [⟨"Rántotta", none, none⟩] }, [Effect.getRecipes]) :=
  (C7_mealplan_identifier.1 "2025-01-06" { recipes := [⟨"Rántotta", none, none⟩] }
    { name := some "Rántotta" } ⟨"Rántotta", none, none⟩ (by decide) rfl).1

/-! ## Claim C10 -/

/-- `parse_ingredient_text` carries the raw line through unchanged as
`original_text`. -/
theorem parse_original (line : String) :
    (MealieMenuCreator.parse_ingredient_text line).original_text = line := by
  cases h : regexMatch (pyStrip line).data with
  | none => simp [MealieMenuCreator.parse_ingredient_text, h]
  | some p =>
      obtain ⟨g1, g2⟩ := p
      simp [MealieMenuCreator.parse_ingredient_text, h]

/-- The entries built by the ingredient loop are a pure function of the
lines: one entry per line, in order, independent of the threaded store. -/
theorem convertIngredients_entries (lines : List String) :
    ∀ s : RemoteState, (MealieMenuCreator.convertIngredients s lines).1 =
      lines.map (fun line =>
        { title := "", note := line, unit := "",
          quantity := (MealieMenuCreator.parse_ingredient_text line).quantity,
          foodName := (MealieMenuCreator.parse_ingredient_text line).name,
          disableAmount := false, display := line }) := by
  induction lines with
  | nil => intro s; rfl
  | cons line rest ih =>
      intro s
      simp only [MealieMenuCreator.convertIngredients, List.map]
      rw [ih]
      simp [parse_original]

/-- Claim C10: the translated payload carries exactly one structured
ingredient entry per `recipeIngredient` line, in the original order, with
the unmodified line as both `note` and `display` and the parsed name as
the nested food name; and the whole payload is independent of the remote
store the `ensure_ingredient_exists` side calls ran against — in
particular it is unchanged when those calls return `None` because the
server rejects the food `POST`s. -/
theorem C10_payload_ingredients :
    (∀ (s : RemoteState) (recipe : SourceRecipe),
      (MealieMenuCreator.convert_recipe_to_mealie_format_st s recipe).1.recipeIngredient =
        recipe.recipeIngredient.map (fun line =>
          { title := "", note := line, unit := "",
            quantity := (MealieMenuCreator.parse_ingredient_text line).quantity,
            foodName := (MealieMenuCreator.parse_ingredient_text line).name,
            disableAmount := false, display := line })) ∧
    (∀ (s s' : RemoteState) (recipe : SourceRecipe),
      (MealieMenuCreator.convert_recipe_to_mealie_format_st s recipe).1 =
        (MealieMenuCreator.convert_recipe_to_mealie_format_st s' recipe).1) := by
  constructor
  · intro s recipe
    simp only [MealieMenuCreator.convert_recipe_to_mealie_format_st]
    exact convertIngredients_entries recipe.recipeIngredient s
  · intro s s' recipe
    simp only [MealieMenuCreator.convert_recipe_to_mealie_format_st,
      convertIngredients_entries]

end Mealie
